import Mathlib

/-!
Verification development for the cjs2esm tool.

The embedding covers the specifier resolver of src/transformer.js and the
copy / shebang-shield / transformation pipeline of the main module.  Strings
are modelled as Lean `String`s manipulated through their character lists;
the Node path utilities are modelled for the posix separator, which is the
only separator exercised by the claims.  External oracles (the filesystem,
the jscodeshift runner, user-supplied regular expressions) are abstracted as
function parameters, since they are external libraries, not repository code.
-/

/-- JS word character, the regex class backslash-w: ASCII letters, digits and
the underscore. -/
def isWordCharJs (c : Char) : Bool := c.isAlphanum || c == '_'

/-- Whitespace recognized by JS trimStart: the ECMAScript WhiteSpace set (tab,
vertical tab, form feed, space, no-break space, the Unicode space separators,
the zero-width no-break space) together with the LineTerminator set. -/
def isJsWhitespace (c : Char) : Bool :=
  c == ' ' || c == '\t' || c == '\n' || c == '\r' || c == '\x0B' || c == '\x0C' ||
  c == '\xA0' || c == '\u1680' || ('\u2000' ≤ c && c ≤ '\u200A') ||
  c == '\u2028' || c == '\u2029' || c == '\u202F' || c == '\u205F' ||
  c == '\u3000' || c == '\uFEFF'

/-- Line terminators of the JS regex multiline anchors and the dot class: the
caret matches right after one, the dollar right before one, and the dot matches
none of them. -/
def isJsLineTerminator (c : Char) : Bool :=
  c == '\n' || c == '\r' || c == '\u2028' || c == '\u2029'

/-- Splits a character list on a separator character, keeping empty fields, as
JS String.prototype.split with a one-character separator does. -/
def splitOnCharList (sep : Char) : List Char → List (List Char)
  | [] => [[]]
  | c :: cs =>
    match splitOnCharList sep cs with
    | [] => [[]]
    | a :: rest => if c == sep then [] :: a :: rest else (c :: a) :: rest

/-- Splits a character list at every character satisfying the given predicate,
keeping empty fields.  With the line-terminator predicate the resulting fields
are exactly the stretches between terminators: the positions where the
multiline caret can match open them and the positions where the multiline
dollar can match close them. -/
def splitOnPredList (sep : Char → Bool) : List Char → List (List Char)
  | [] => [[]]
  | c :: cs =>
    match splitOnPredList sep cs with
    | [] => [[]]
    | a :: rest => if sep c then [] :: a :: rest else (c :: a) :: rest

/-- Replaces the first occurrence of a plain (non-regex) pattern, as JS
String.prototype.replace does with a string argument; the input is returned
unchanged when the pattern does not occur. -/
def replaceFirstList (pat repl : List Char) : List Char → List Char
  | [] => if pat.isEmpty then repl else []
  | c :: cs =>
    if pat.isPrefixOf (c :: cs) then repl ++ (c :: cs).drop pat.length
    else c :: replaceFirstList pat repl cs

/-- Boolean string prefix test (JS String.prototype.startsWith). -/
def strStartsWith (s t : String) : Bool := t.toList.isPrefixOf s.toList

/-- Boolean string suffix test (JS String.prototype.endsWith). -/
def strEndsWith (s t : String) : Bool := t.toList.reverse.isPrefixOf s.toList.reverse

/-- Drops the first n characters of a string. -/
def strDropChars (s : String) (n : Nat) : String := String.mk (s.toList.drop n)

/-- One pass of Node's posix path normalization over the split segments:
empty and dot segments vanish, dot-dot segments pop, staying above the root
only for relative paths. -/
def normSegments (isAbs : Bool) (segs : List (List Char)) : List (List Char) :=
  (segs.foldl (fun acc s =>
    if s.isEmpty || s == ['.'] then acc
    else if s == ['.', '.'] then
      match acc with
      | [] => if isAbs then [] else [['.', '.']]
      | a :: rest => if a == ['.', '.'] then s :: a :: rest else rest
    else s :: acc) []).reverse

/-- Node posix path.normalize for the slash separator. -/
def pathNormalize (p : String) : String :=
  let l := p.toList
  if l.isEmpty then "." else
  let isAbs := l.head? == some '/'
  let trail := l.getLast? == some '/'
  let core := List.intercalate ['/'] (normSegments isAbs (splitOnCharList '/' l))
  if core.isEmpty then
    if isAbs then "/" else if trail then "./" else "."
  else
    String.mk ((if isAbs then '/' :: core else core) ++ (if trail then ['/'] else []))

/-- Node posix path.join for two parts: empty parts are skipped, the rest is
concatenated with a slash and normalized. -/
def pathJoin (a b : String) : String :=
  if a.toList.isEmpty then pathNormalize b
  else if b.toList.isEmpty then pathNormalize a
  else pathNormalize (String.mk (a.toList ++ '/' :: b.toList))

/-- Node posix path.dirname. -/
def pathDirname (p : String) : String :=
  let l := p.toList
  if l.isEmpty then "." else
  let hasRoot := l.head? == some '/'
  let r1 := l.reverse.dropWhile (· == '/')
  match r1.dropWhile (· != '/') with
  | [] => if hasRoot then "/" else "."
  | _ :: rest => if rest.isEmpty then "/" else String.mk rest.reverse

/-- Node posix path.basename, without the extension argument. -/
def pathBasename (p : String) : String :=
  String.mk (((p.toList.reverse.dropWhile (· == '/')).takeWhile (· != '/')).reverse)

/-- The ext field of Node's path.parse: the suffix of the basename from its last
dot; empty when there is no dot, when the only dot leads a dotfile name, or for
the special dot-dot name. -/
def parseExt (p : String) : String :=
  let b := (pathBasename p).toList
  if b == ['.', '.'] then "" else
  let r := b.reverse
  let pre := r.takeWhile (· != '.')
  if r.length ≤ pre.length then ""
  else if pre.length + 1 == r.length then ""
  else String.mk ((r.take (pre.length + 1)).reverse)

/-- The name field of Node's path.parse: the basename with its ext removed. -/
def parseName (p : String) : String :=
  let b := (pathBasename p).toList
  String.mk (b.take (b.length - (parseExt p).toList.length))

/-- JS replace with the trailing-slash-anchored regex (transformer.js line 26):
drops one trailing slash when present. -/
def stripTrailingSlash (s : String) : String :=
  if strEndsWith s "/" then String.mk s.toList.dropLast else s

/-- Node path.resolve as used on transformer.js line 40, restricted to the shape
the source exercises: an absolute working directory, the literal node_modules
segment, and the specifier. -/
def pathResolveNodeModules (cwd spec : String) : String :=
  let joined := if strStartsWith spec "/" then spec
                else cwd ++ "/node_modules/" ++ spec
  let core := List.intercalate ['/'] (normSegments true (splitOnCharList '/' joined.toList))
  if core.isEmpty then "/" else String.mk ('/' :: core)

example : pathNormalize "/out/./lib/" = "/out/lib/" := by decide
example : pathJoin "." "b.mjs" = "b.mjs" := by decide
example : pathJoin "./lib" "index.mjs" = "lib/index.mjs" := by decide
example : pathJoin "/out/lib/" "package.json" = "/out/lib/package.json" := by decide
example : pathDirname "./b" = "." := by decide
example : pathDirname "a//b" = "a/" := by decide
example : pathBasename "/x/a.mjs" = "a.mjs" := by decide
example : parseExt "/out/a.JS" = ".JS" := by decide
example : parseExt "/out/.js" = "" := by decide
example : parseName "/x/cjs.js" = "cjs" := by decide
example : stripTrailingSlash "./lib/" = "./lib" := by decide

/-- Result of one filesystem probe, as returned by the utilities module. -/
structure AbsPathInfo where
  isFile : Bool
  path : String
deriving DecidableEq

/-- Modelled from the spec: the filesystem probes the resolver relies on.  The
utilities module src/utils.js is not part of the given sources, so its
getAbsPathInfoSync probe ("probe the candidate path" returning nothing, a file
with its actual on-disk name, or a directory) is kept abstract as an oracle,
next to the plain existence checks used by fs-extra pathExistsSync and by
findFileSync. -/
structure FileSys where
  pathExists : String → Bool
  fileExists : String → Bool
  absPathInfo : String → Option AbsPathInfo

/-- Modelled from the spec: findFileSync from src/utils.js (not under src/) —
probes the given filenames inside the directory "in that priority order" and
returns the first that exists, or none. -/
def findFileSync (fsys : FileSys) (names : List String) (dir : String) : Option String :=
  (names.find? (fun n => fsys.fileExists (pathJoin dir n))).map (fun n => pathJoin dir n)

/-- transformer.js createReplacementForFolder (lines 21-33): a directory with a
package.json keeps the specifier (minus a trailing slash); otherwise the first
of index.mjs, index.js found in the directory is appended; otherwise none. -/
def createReplacementForFolder (fsys : FileSys) (absPath importPath : String) : Option String :=
  if fsys.pathExists (pathJoin absPath "package.json") then
    some (stripTrailingSlash importPath)
  else
    match findFileSync fsys ["index.mjs", "index.js"] absPath with
    | some file => some (pathJoin importPath (pathBasename file))
    | none => none

/-- The candidate absolute path the resolver probes (transformer.js lines
38-40): relative specifiers join against the file directory, bare ones resolve
into node_modules. -/
def candidatePath (cwd base importPath : String) : String :=
  if strStartsWith importPath "." then pathJoin base importPath
  else pathResolveNodeModules cwd importPath

/-- The relative-marker hotfix closing updatePath (transformer.js lines 60-65):
a specifier that was the dot or dot-slash style keeps a leading dot-slash. -/
def relFix (importPath replacement : String) : String :=
  if (importPath == "." || strStartsWith importPath "./") && !(strStartsWith replacement "./")
  then "./" ++ replacement else replacement

/-- transformer.js updatePath (lines 35-67): computes the replacement specifier
from the probe of the candidate path.  The JS expression folderReplacement
or-else importPath treats the empty string as falsy, hence the inner test. -/
def updatePath (fsys : FileSys) (cwd base importPath : String) : String :=
  let absPath := candidatePath cwd base importPath
  let replacement :=
    match fsys.absPathInfo absPath with
    | none => importPath
    | some info =>
      if info.isFile then pathJoin (pathDirname importPath) (pathBasename info.path)
      else
        match createReplacementForFolder fsys absPath importPath with
        | some r => if r == "" then importPath else r
        | none => importPath
  relFix importPath replacement

/-- transformer.js needsPathUpdate (lines 98-105).  User ignore patterns are
arbitrary JS regexes, an external library, so their matching is abstracted by
the rx oracle; the leading word-character test is concrete. -/
def needsPathUpdate (rx : String → String → Bool) (ignoreList : List String)
    (source : Option String) : Bool :=
  match source with
  | none => false
  | some p =>
    !(p == "") && !(ignoreList.any (fun pat => rx pat p)) &&
      (strStartsWith p "." || (p.toList.head?.map isWordCharJs).getD false)

/-- Statement kinds whose source specifier the transform rewrites; only the
specifier is carried, the rest of the node is untouched by the passes. -/
inductive Stmt where
  | importDecl (source : String)
  | exportNamed (source : Option String)
  | exportAll (source : String)
deriving DecidableEq

/-- The source specifier of a statement, when present. -/
def stmtSource : Stmt → Option String
  | .importDecl s => some s
  | .exportNamed s => s
  | .exportAll s => some s

/-- One alias rule of the configuration modules list. -/
structure ModuleRule where
  name : String
  path : String
  find : Option String
deriving DecidableEq

/-- The caret-name-segment regex built for each module rule (transformer.js
line 158), for literal rule names: the name as a whole path segment at the
start of the specifier. -/
def moduleRegexTest (name s : String) : Bool :=
  s == name || strStartsWith s (name ++ "/")

/-- The replacement applied by the alias sub-pass (transformer.js lines
170-173).  A custom find pattern is a user regex, abstracted by the rxReplace
oracle; the default branch is the caret-anchored literal replace of the rule
name. -/
def aliasReplace (rxReplace : String → String → String → String)
    (r : ModuleRule) (src : String) : String :=
  match r.find with
  | some f => rxReplace f r.path src
  | none =>
    if strStartsWith src r.name then r.path ++ strDropChars src r.name.toList.length
    else src

/-- The alias (modules) sub-pass on one statement (transformer.js lines
155-197): wired only to import declarations — the export variant is commented
out in the source.  The none branch of find? is unreachable because a segment
match implies a plain prefix match. -/
def applyModulePass (rxReplace : String → String → String → String)
    (modules : List ModuleRule) : Stmt → Stmt
  | .importDecl src =>
    if modules.isEmpty then .importDecl src
    else if modules.any (fun m => moduleRegexTest m.name src) then
      match modules.find? (fun m => strStartsWith src m.name) with
      | some r => .importDecl (aliasReplace rxReplace r src)
      | none => .importDecl src
    else .importDecl src
  | st => st

/-- The extension sub-pass on one statement (transformer.js lines 110-151):
each of the three statement kinds is filtered by needsPathUpdate and its
specifier replaced by updatePath. -/
def applyExtensionPass (rx : String → String → Bool) (fsys : FileSys)
    (ignoreList : List String) (cwd base : String) : Stmt → Stmt
  | .importDecl src =>
    if needsPathUpdate rx ignoreList (some src) then
      .importDecl (updatePath fsys cwd base src)
    else .importDecl src
  | .exportNamed none => .exportNamed none
  | .exportNamed (some src) =>
    if needsPathUpdate rx ignoreList (some src) then
      .exportNamed (some (updatePath fsys cwd base src))
    else .exportNamed (some src)
  | .exportAll src =>
    if needsPathUpdate rx ignoreList (some src) then
      .exportAll (updatePath fsys cwd base src)
    else .exportAll src

/-- Per-statement composition of the two sub-passes in source order
(transformer.js lines 107-197): the extension pass rewrites the AST first and
the alias pass then reads the updated specifiers. -/
def transformStmt (rx : String → String → Bool)
    (rxReplace : String → String → String → String) (fsys : FileSys)
    (ignoreList : List String) (modules : List ModuleRule)
    (cwd base : String) (st : Stmt) : Stmt :=
  applyModulePass rxReplace modules (applyExtensionPass rx fsys ignoreList cwd base st)

/-- The per-file body of removeShebangs (main module lines 238-263): the first
line starting with the shebang marker, found by the multiline
caret-hash-bang-lazy-dot-dollar regex, is recorded, its first occurrence
removed from the contents, and the remainder left-trimmed.  A line here is a
stretch between JS line terminators — the multiline anchors treat the carriage
return exactly like the newline, so the recorded directive never contains
one. -/
def removeShebangFile (contents : String) : Option (String × String) :=
  match (splitOnPredList isJsLineTerminator contents.toList).find?
      (fun l => ['#', '!'].isPrefixOf l) with
  | some sh => some (String.mk sh,
      String.mk ((replaceFirstList sh [] contents.toList).dropWhile isJsWhitespace))
  | none => none

/-- The per-file body of restoreShebangs (main module lines 274-282): the
recorded directive, a blank line, then the transformed contents. -/
def restoreShebangFile (shebang contents : String) : String :=
  shebang ++ "\n\n" ++ contents

/-- Shield removal followed by restoration with no intervening modification of
the file contents. -/
def shebangRoundTrip (contents : String) : String :=
  match removeShebangFile contents with
  | some (sh, c) => restoreShebangFile sh c
  | none => contents

/-- Per-pass statistics reported by the jscodeshift runner; only the fields the
pipeline inspects are kept. -/
structure PassStats where
  ok : Nat
  nochange : Nat
deriving DecidableEq

/-- One entry of the copy manifest (a CJS2ESMCopiedFile). -/
structure CopiedFile where
  fromPath : String
  toPath : String
deriving DecidableEq

/-- The four transformation module paths (main module lines 320-328), built
from the resolved 5to6-codemod directory and the directory of the main
module. -/
def transformationsList (fiveToSixCodeModPath dirnameSelf : String) : List String :=
  [pathJoin fiveToSixCodeModPath "cjs.js",
   pathJoin fiveToSixCodeModPath "exports.js",
   pathJoin fiveToSixCodeModPath "named-export-generation.js",
   pathJoin dirnameSelf "transformer.js"]

/-- Outcome of the transformation phase: the passes that were run, in order,
and the final result. -/
structure TransformRunResult where
  executedPasses : List String
  outcome : Except String Unit

/-- Control-flow skeleton of transformOutput (main module lines 293-369).  The
options literal reads the first file's destination path on line 299, which on
an empty list throws a TypeError before anything else runs; the reduce of
lines 332-341 chains every pass unconditionally; only after all passes (and
the shebang restoration) does the findIndex check of lines 347-357 throw,
naming the first failing pass.  The runner oracle stands for the external
jscodeshift engine; the shebang shield is modelled by removeShebangFile and
restoreShebangFile, and logging is elided. -/
def transformOutput (runner : String → PassStats)
    (fiveToSixCodeModPath dirnameSelf : String) (files : List CopiedFile) :
    TransformRunResult :=
  match files with
  | [] => ⟨[], .error "TypeError: Cannot read properties of undefined (reading \x27to\x27)"⟩
  | _ :: _ =>
    let ts := transformationsList fiveToSixCodeModPath dirnameSelf
    let results := ts.map runner
    ⟨ts,
      match results.findIdx? (fun s => !(s.ok + s.nochange == files.length)) with
      | some i => .error ("At least one file couldn\x27t be transformed with `"
          ++ parseName (ts.getD i "") ++ "`")
      | none => .ok ()⟩

/-- JS newPath.replace with the regex built on copyDirectory line 177 from the
parsed extension: for a nonempty ext (whose characters after the leading dot
carry no regex metacharacter, true of every extension the source filter lets
through) the anchored regex rewrites the matching suffix; for the empty ext the
built regex is the escaped dollar, which replaces a literal dollar character. -/
def replaceExtRegex (p ext extension : String) : String :=
  if ext == "" then String.mk (replaceFirstList ['$'] extension.toList p.toList)
  else if strEndsWith p ext then
    String.mk (p.toList.take (p.toList.length - ext.toList.length) ++ extension.toList)
  else p

/-- The destination-path computation of copyDirectory (main module lines
174-178): join the output root with the cleaned relative path, then rewrite the
parsed extension to the configured one when it differs. -/
def copyDestPath (useExtension output cleanPath : String) : String :=
  let newPath := pathJoin output cleanPath
  let ext := parseExt newPath
  let extension := "." ++ useExtension
  if !(ext == extension) then replaceExtRegex newPath ext extension else newPath

/-- The case-insensitive source filter of findFiles (main module line 127): the
filename matches the dot-js-dollar regex under the i flag. -/
def matchesJsExt (p : String) : Bool :=
  ['s', 'j', '.'].isPrefixOf (p.toList.reverse.map Char.toLower)

/-- Follows the claim C8 wording, for comparison with the source definition
createReplacementForFolder: probe the index entry with the configured target
extension first and the plain source extension second. -/
def createReplacementForFolderSpecC8 (fsys : FileSys)
    (useExtension absPath importPath : String) : Option String :=
  if fsys.pathExists (pathJoin absPath "package.json") then
    some (stripTrailingSlash importPath)
  else
    match findFileSync fsys ["index." ++ useExtension, "index.js"] absPath with
    | some file => some (pathJoin importPath (pathBasename file))
    | none => none

/-- The resolver with the claim C8 probe order substituted for the source one;
identical to updatePath otherwise. -/
def updatePathSpecC8 (fsys : FileSys) (useExtension cwd base importPath : String) : String :=
  let absPath := candidatePath cwd base importPath
  let replacement :=
    match fsys.absPathInfo absPath with
    | none => importPath
    | some info =>
      if info.isFile then pathJoin (pathDirname importPath) (pathBasename info.path)
      else
        match createReplacementForFolderSpecC8 fsys useExtension absPath importPath with
        | some r => if r == "" then importPath else r
        | none => importPath
  relFix importPath replacement

/-- Filesystem fixture on which nothing exists. -/
def fsysEmpty : FileSys :=
  ⟨fun _ => false, fun _ => false, fun _ => none⟩

/-- Filesystem fixture: the directory /out/lib/ holds a package.json. -/
def fsysPkgDir : FileSys :=
  ⟨fun p => p == "/out/lib/package.json",
   fun _ => false,
   fun p => if p == "/out/lib/" then some ⟨false, p⟩ else none⟩

/-- Filesystem fixture: the directory /out/lib holds only an index.mjs and no
package.json. -/
def fsysIndexDir : FileSys :=
  ⟨fun _ => false,
   fun p => p == "/out/lib/index.mjs",
   fun p => if p == "/out/lib" then some ⟨false, p⟩ else none⟩

example : updatePath fsysEmpty "/p" "/out" "." = "./." := by decide
example : updatePath fsysEmpty "/p" "/out" "./x" = "./x" := by decide
example : updatePath fsysEmpty "/p" "/out" "foo" = "foo" := by decide
example : updatePath fsysPkgDir "/p" "/out" "./lib/" = "./lib" := by decide
example : updatePath fsysIndexDir "/p" "/out" "./lib" = "./lib/index.mjs" := by decide
example : updatePathSpecC8 fsysIndexDir "js" "/p" "/out" "./lib" = "./lib" := by decide
example : shebangRoundTrip "#!/usr/bin/env node\nmain()" = "#!/usr/bin/env node\n\nmain()" := by decide
example : shebangRoundTrip "#!a\n\nb" = "#!a\n\nb" := by decide
example : shebangRoundTrip "#!a\r\n\nb" = "#!a\n\nb" := by decide
example : removeShebangFile "#!a\r\nb" = some ("#!a", "b") := by decide
example :
    transformStmt (fun pat _ => pat == "") (fun _ _ s => s) fsysEmpty [""]
      [⟨"utils", "./shared/utils", none⟩] "/p" "/out" (.importDecl "utils/helpers")
      = .importDecl "./shared/utils/helpers" := by decide
example :
    transformOutput (fun _ => ⟨0, 0⟩) "/a" "/b" [⟨"x", "y"⟩]
      = ⟨transformationsList "/a" "/b",
         .error "At least one file couldn\x27t be transformed with `cjs`"⟩ := by rfl
example : transformOutput (fun _ => ⟨0, 0⟩) "/a" "/b" [] = ⟨[], .error
    "TypeError: Cannot read properties of undefined (reading \x27to\x27)"⟩ := by rfl
example : copyDestPath "mjs" "/out" ".js" = "/out/.js" := by decide
example : copyDestPath "mjs" "/out" "a.JS" = "/out/a.mjs" := by decide
example : copyDestPath "js" "/out" "sub/a.Js" = "/out/sub/a.js" := by decide

theorem strToList_append (s t : String) : (s ++ t).toList = s.toList ++ t.toList := rfl

theorem strMk_toList (l : List Char) : (String.mk l).toList = l := rfl

theorem isPrefixOf_append_self (a b : List Char) : a.isPrefixOf (a ++ b) = true := by
  induction a with
  | nil => simp [List.isPrefixOf]
  | cons c cs ih => simp [List.isPrefixOf, ih]

theorem isPrefixOf_of_prefix (a b : List Char) (h : a <+: b) : a.isPrefixOf b = true := by
  obtain ⟨t, rfl⟩ := h
  exact isPrefixOf_append_self a t

theorem takeWhile_isPrefixOf (p : Char → Bool) (l : List Char) :
    (l.takeWhile p).isPrefixOf l = true :=
  isPrefixOf_of_prefix _ _ (List.takeWhile_prefix p)

theorem strStartsWith_append_self (t r : String) : strStartsWith (t ++ r) t = true := by
  simp only [strStartsWith, strToList_append]
  exact isPrefixOf_append_self _ _

theorem strStartsWith_dot_dotSlash : strStartsWith "." "./" = false := by decide

theorem relFix_startsWith (ip r : String) (h : ip = "." ∨ strStartsWith ip "./" = true) :
    strStartsWith (relFix ip r) "./" = true := by
  unfold relFix
  by_cases hr : strStartsWith r "./" = true
  · simp [hr]
  · have hc : (ip == "." || strStartsWith ip "./") = true := by
      rcases h with h | h
      · simp [h]
      · simp [h]
    simp only [hc, Bool.not_eq_true] at hr ⊢
    simp [hr, strStartsWith_append_self]

theorem relFix_self (ip : String) : relFix ip ip = if ip = "." then "./." else ip := by
  unfold relFix
  by_cases hs : strStartsWith ip "./" = true
  · have hne : ip ≠ "." := by
      intro h
      rw [h, strStartsWith_dot_dotSlash] at hs
      exact Bool.false_ne_true hs
    simp [hs, hne]
  · simp only [Bool.not_eq_true] at hs
    by_cases hd : ip = "."
    · subst hd
      decide
    · simp [hs, hd]

theorem relFix_of_startsWith (ip r : String) (h : strStartsWith r "./" = true) :
    relFix ip r = r := by
  simp [relFix, h]

theorem strMk_ne_empty (l : List Char) (h : l ≠ []) : String.mk l ≠ "" := by
  intro he
  exact h (congrArg String.toList he)

theorem pathNormalize_ne_empty (p : String) : pathNormalize p ≠ "" := by
  intro h
  unfold pathNormalize at h
  simp only [] at h
  split at h
  · exact absurd h (by decide)
  · split at h
    · split at h
      · exact absurd h (by decide)
      · split at h
        · exact absurd h (by decide)
        · exact absurd h (by decide)
    · rename_i hcore
      have hdata := congrArg String.toList h
      simp only [strMk_toList] at hdata
      rcases List.append_eq_nil.mp hdata with ⟨hl, _⟩
      have hcore2 : ¬(List.intercalate ['/']
          (normSegments (p.toList.head? == some '/') (splitOnCharList '/' p.toList))).isEmpty
            = true := hcore
      have hc : List.intercalate ['/']
          (normSegments (p.toList.head? == some '/') (splitOnCharList '/' p.toList)) ≠ [] := by
        intro hnil
        rw [hnil] at hcore2
        exact hcore2 rfl
      split at hl
      · exact List.cons_ne_nil _ _ hl
      · exact hc hl

theorem pathJoin_ne_empty (a b : String) : pathJoin a b ≠ "" := by
  unfold pathJoin
  split
  · exact pathNormalize_ne_empty b
  · split
    · exact pathNormalize_ne_empty a
    · exact pathNormalize_ne_empty _

theorem toList_inj (s t : String) (h : s.toList = t.toList) : s = t := by
  cases s
  cases t
  exact congrArg String.mk h

theorem stripTrailingSlash_eq_empty (s : String)
    (h : stripTrailingSlash s = "") : s = "" ∨ s = "/" := by
  unfold stripTrailingSlash at h
  split at h
  · rename_i hends
    have hdata := congrArg String.toList h
    simp only [strMk_toList] at hdata
    simp only [strEndsWith] at hends
    rcases hs : s.toList with _ | ⟨c, cs⟩
    · exact Or.inl (toList_inj s "" (by rw [hs]; rfl))
    · right
      rw [hs] at hdata hends
      have hcs : cs = [] := by
        cases cs with
        | nil => rfl
        | cons d ds =>
          have hlen := congrArg List.length hdata
          simp at hlen
      subst hcs
      have hc : c = '/' := by
        simp [List.isPrefixOf] at hends
        exact hends.symm
      subst hc
      exact toList_inj s "/" (by rw [hs]; rfl)
  · exact Or.inl h

/-- C10: invoking the transformation phase with an empty list of copied files
throws (a TypeError raised while reading the first file's destination path on
line 299 of the main module) before any pass runs, instead of succeeding over
zero files. -/
theorem claim_C10_empty_files (runner : String → PassStats) (p d : String) :
    transformOutput runner p d [] =
      ⟨[], .error "TypeError: Cannot read properties of undefined (reading \x27to\x27)"⟩ := rfl

/-- C1 (amended): when some pass reports ok plus nochange different from the
file count, the run aborts with an error naming the first failing pass, but
only after every pass of the sequence has executed — the stats check runs after
the full reduce, so later passes are not skipped. -/
theorem claim_C1_pass_failure_abort (runner : String → PassStats)
    (p d : String) (files : List CopiedFile) (i : Nat)
    (hne : files ≠ [])
    (hfail : ((transformationsList p d).map runner).findIdx?
        (fun s => !(s.ok + s.nochange == files.length)) = some i) :
    (transformOutput runner p d files).executedPasses = transformationsList p d ∧
    (transformOutput runner p d files).outcome =
      .error ("At least one file couldn\x27t be transformed with `"
        ++ parseName ((transformationsList p d).getD i "") ++ "`") := by
  cases files with
  | nil => exact absurd rfl hne
  | cons f fs =>
    refine ⟨rfl, ?_⟩
    have hout : (transformOutput runner p d (f :: fs)).outcome =
        match ((transformationsList p d).map runner).findIdx?
            (fun s => !(s.ok + s.nochange == (f :: fs).length)) with
        | some j => Except.error ("At least one file couldn\x27t be transformed with `"
            ++ parseName ((transformationsList p d).getD j "") ++ "`")
        | none => Except.ok () := rfl
    rw [hout, hfail]

/-- C1 (counterexample to the claim as stated): with a runner whose first pass
fails over one file, the run does abort naming that pass, yet every one of the
four passes still executes — the executed list is not cut after the failing
pass. -/
theorem claim_C1_counterexample :
    (transformOutput (fun _ => ⟨0, 0⟩) "/a" "/b" [⟨"x", "y"⟩]).outcome =
      .error "At least one file couldn\x27t be transformed with `cjs`" ∧
    (transformOutput (fun _ => ⟨0, 0⟩) "/a" "/b" [⟨"x", "y"⟩]).executedPasses =
      transformationsList "/a" "/b" ∧
    (transformOutput (fun _ => ⟨0, 0⟩) "/a" "/b" [⟨"x", "y"⟩]).executedPasses ≠
      [pathJoin "/a" "cjs.js"] := by
  refine ⟨rfl, by decide, by decide⟩

/-- C1 witness: the amended theorem applied to a concrete failing run. -/
theorem claim_C1_witness :
    (transformOutput (fun _ => (⟨0, 0⟩ : PassStats)) "/a" "/b" [⟨"x", "y"⟩]).executedPasses
        = transformationsList "/a" "/b" ∧
    (transformOutput (fun _ => (⟨0, 0⟩ : PassStats)) "/a" "/b" [⟨"x", "y"⟩]).outcome =
      .error ("At least one file couldn\x27t be transformed with `"
        ++ parseName ((transformationsList "/a" "/b").getD 0 "") ++ "`") :=
  claim_C1_pass_failure_abort (fun _ => ⟨0, 0⟩) "/a" "/b" [⟨"x", "y"⟩] 0
    (by decide) (by decide)

/-- C9: a specifier written in the explicit relative style (the bare dot or a
dot-slash start) still starts with the dot-slash marker after the resolver ran,
the hotfix re-prepending it whenever path joining stripped it. -/
theorem claim_C9_relative_marker (fsys : FileSys) (cwd base ip : String)
    (h : ip = "." ∨ strStartsWith ip "./" = true) :
    strStartsWith (updatePath fsys cwd base ip) "./" = true := by
  simp only [updatePath]
  exact relFix_startsWith ip _ h

/-- C9 witness: the relative marker survives on a concrete missing target. -/
theorem claim_C9_witness :
    strStartsWith (updatePath fsysEmpty "/p" "/out" "./x") "./" = true :=
  claim_C9_relative_marker fsysEmpty "/p" "/out" "./x" (Or.inr (by decide))

/-- C7 (amended): when nothing exists at the resolved candidate path the
resolver returns the specifier unchanged — except for the bare dot specifier,
which the relative-marker hotfix turns into dot-slash-dot. -/
theorem claim_C7_fail_open (fsys : FileSys) (cwd base ip : String)
    (h : fsys.absPathInfo (candidatePath cwd base ip) = none) :
    updatePath fsys cwd base ip = if ip = "." then "./." else ip := by
  simp only [updatePath, h]
  exact relFix_self ip

/-- C7 (counterexample to the claim as stated): the bare dot specifier with a
missing candidate is returned modified, as dot-slash-dot. -/
theorem claim_C7_counterexample :
    fsysEmpty.absPathInfo (candidatePath "/p" "/out" ".") = none ∧
    updatePath fsysEmpty "/p" "/out" "." = "./." ∧ ("./." : String) ≠ "." := by
  refine ⟨rfl, by decide, by decide⟩

/-- C7 witness: a dot-slash specifier with a missing candidate is unchanged. -/
theorem claim_C7_witness :
    updatePath fsysEmpty "/p" "/out" "./x" =
      if ("./x" : String) = "." then "./." else "./x" :=
  claim_C7_fail_open fsysEmpty "/p" "/out" "./x" rfl

/-- C4 (amended): for a candidate directory holding a package.json the resolver
returns the specifier with one trailing slash stripped and the relative marker
re-prepended when needed; a specifier with no trailing slash, other than the
bare dot, is hence returned unchanged.  The root specifier is excluded: the JS
or-else would turn its empty stripped form back into the specifier (the pass
filter never lets it through anyway). -/
theorem claim_C4_manifest_dir (fsys : FileSys) (cwd base ip : String) (info : AbsPathInfo)
    (hinfo : fsys.absPathInfo (candidatePath cwd base ip) = some info)
    (hdir : info.isFile = false)
    (hpkg : fsys.pathExists (pathJoin (candidatePath cwd base ip) "package.json") = true)
    (hroot : ip ≠ "/") :
    updatePath fsys cwd base ip = relFix ip (stripTrailingSlash ip) := by
  simp only [updatePath, hinfo, hdir, createReplacementForFolder, hpkg, if_true,
    Bool.false_eq_true, if_false]
  by_cases hz : stripTrailingSlash ip = ""
  · rcases stripTrailingSlash_eq_empty ip hz with h0 | h0
    · subst h0
      rw [hz]
      decide
    · exact absurd h0 hroot
  · simp [hz]

/-- C4 (counterexample to the claim as stated): a trailing-slash specifier
whose candidate directory holds a package.json comes back without the slash,
not unchanged. -/
theorem claim_C4_counterexample :
    fsysPkgDir.absPathInfo (candidatePath "/p" "/out" "./lib/") = some ⟨false, "/out/lib/"⟩ ∧
    fsysPkgDir.pathExists (pathJoin (candidatePath "/p" "/out" "./lib/") "package.json")
        = true ∧
    updatePath fsysPkgDir "/p" "/out" "./lib/" = "./lib" ∧
    ("./lib" : String) ≠ "./lib/" := by
  refine ⟨by decide, by decide, by decide, by decide⟩

/-- C4 witness: the amended theorem applied to the trailing-slash fixture. -/
theorem claim_C4_witness :
    updatePath fsysPkgDir "/p" "/out" "./lib/"
        = relFix "./lib/" (stripTrailingSlash "./lib/") :=
  claim_C4_manifest_dir fsysPkgDir "/p" "/out" "./lib/" ⟨false, "/out/lib/"⟩
    (by decide) rfl (by decide) (by decide)

/-- C3 (amended): a specifier matching a configured ignore pattern skips the
extension-resolution sub-pass and is left untouched by it, but the alias
sub-pass still applies — its filter never consults the ignore list, so the
whole transform behaves on such a statement exactly as the alias sub-pass
alone. -/
theorem claim_C3_ignore_skips_extension (rx : String → String → Bool)
    (rxReplace : String → String → String → String) (fsys : FileSys)
    (ignoreList : List String) (modules : List ModuleRule) (cwd base : String)
    (st : Stmt) (src : String)
    (hs : stmtSource st = some src)
    (hig : ignoreList.any (fun pat => rx pat src) = true) :
    applyExtensionPass rx fsys ignoreList cwd base st = st ∧
    transformStmt rx rxReplace fsys ignoreList modules cwd base st
      = applyModulePass rxReplace modules st := by
  have hnp : needsPathUpdate rx ignoreList (some src) = false := by
    simp [needsPathUpdate, hig]
  have h1 : applyExtensionPass rx fsys ignoreList cwd base st = st := by
    cases st with
    | importDecl s =>
      have hss : s = src := by simpa [stmtSource] using hs
      subst hss
      simp [applyExtensionPass, hnp]
    | exportNamed os =>
      cases os with
      | none => rfl
      | some s =>
        have hss : s = src := by simpa [stmtSource] using hs
        subst hss
        simp [applyExtensionPass, hnp]
    | exportAll s =>
      have hss : s = src := by simpa [stmtSource] using hs
      subst hss
      simp [applyExtensionPass, hnp]
  refine ⟨h1, ?_⟩
  show applyModulePass rxReplace modules (applyExtensionPass rx fsys ignoreList cwd base st)
      = applyModulePass rxReplace modules st
  rw [h1]

/-- C3 (counterexample to the claim as stated): a specifier matched by an
ignore pattern (the empty pattern, which matches every string) and by an alias
rule is still rewritten by the alias sub-pass, so it is not passed through
byte-identical. -/
theorem claim_C3_counterexample :
    ([""] : List String).any (fun pat => (fun p (_ : String) => p == "") pat "utils/helpers")
        = true ∧
    transformStmt (fun p _ => p == "") (fun _ _ s => s) fsysEmpty [""]
        [⟨"utils", "./shared/utils", none⟩] "/p" "/out" (.importDecl "utils/helpers")
      = .importDecl "./shared/utils/helpers" ∧
    Stmt.importDecl "./shared/utils/helpers" ≠ .importDecl "utils/helpers" := by
  refine ⟨by decide, by decide, by decide⟩

/-- C3 witness: the amended theorem applied to the ignored specifier. -/
theorem claim_C3_witness :
    applyExtensionPass (fun p (_ : String) => p == "") fsysEmpty [""] "/p" "/out"
        (.importDecl "utils/helpers") = .importDecl "utils/helpers" ∧
    transformStmt (fun p _ => p == "") (fun _ _ s => s) fsysEmpty [""]
        [⟨"utils", "./shared/utils", none⟩] "/p" "/out" (.importDecl "utils/helpers")
      = applyModulePass (fun _ _ s => s) [⟨"utils", "./shared/utils", none⟩]
          (.importDecl "utils/helpers") :=
  claim_C3_ignore_skips_extension (fun p _ => p == "") (fun _ _ s => s) fsysEmpty [""]
    [⟨"utils", "./shared/utils", none⟩] "/p" "/out" (.importDecl "utils/helpers")
    "utils/helpers" rfl (by decide)

/-- C5: the alias sub-pass fires only on specifiers matching some rule name as
a whole path segment at the start; the rewrite then substitutes the rule's
replacement path under the rule's custom match pattern when provided, else as a
literal prefix replace of the rule name (the applied rule being the first whose
name is a plain prefix); and the pass touches import declarations only, never
the re-export statement kinds. -/
theorem claim_C5_alias_pass (rxReplace : String → String → String → String)
    (modules : List ModuleRule) (src : String) (r : ModuleRule)
    (hm : modules.any (fun m => moduleRegexTest m.name src) = true)
    (hr : modules.find? (fun m => strStartsWith src m.name) = some r) :
    applyModulePass rxReplace modules (.importDecl src)
        = .importDecl (aliasReplace rxReplace r src) ∧
    (∀ src2 : String, modules.all (fun m => !(moduleRegexTest m.name src2)) = true →
      applyModulePass rxReplace modules (.importDecl src2) = .importDecl src2) ∧
    (∀ os : Option String,
      applyModulePass rxReplace modules (.exportNamed os) = .exportNamed os) ∧
    (∀ s2 : String, applyModulePass rxReplace modules (.exportAll s2) = .exportAll s2) := by
  have hne : modules.isEmpty = false := by
    cases modules with
    | nil => simp at hm
    | cons m ms => rfl
  refine ⟨?_, ?_, fun _ => rfl, fun _ => rfl⟩
  · simp [applyModulePass, hne, hm, hr]
  · intro src2 hall
    have hany : modules.any (fun m => moduleRegexTest m.name src2) = false := by
      simp only [List.all_eq_true] at hall
      simp only [List.any_eq_false]
      intro m hmem
      simpa using hall m hmem
    simp [applyModulePass, hne, hany]

/-- C5 witness: the theorem applied to the spec scenario rule, whose rewrite of
the helpers import is checked by a separate example. -/
theorem claim_C5_witness :
    applyModulePass (fun _ _ s => s) [⟨"utils", "./shared/utils", none⟩]
        (.importDecl "utils/helpers")
      = .importDecl (aliasReplace (fun _ _ s => s) ⟨"utils", "./shared/utils", none⟩
          "utils/helpers") ∧
    (∀ src2 : String,
      ([⟨"utils", "./shared/utils", none⟩] : List ModuleRule).all
          (fun m => !(moduleRegexTest m.name src2)) = true →
      applyModulePass (fun _ _ s => s) [⟨"utils", "./shared/utils", none⟩]
          (.importDecl src2) = .importDecl src2) ∧
    (∀ os : Option String,
      applyModulePass (fun _ _ s => s) [⟨"utils", "./shared/utils", none⟩]
          (.exportNamed os) = .exportNamed os) ∧
    (∀ s2 : String,
      applyModulePass (fun _ _ s => s) [⟨"utils", "./shared/utils", none⟩]
          (.exportAll s2) = .exportAll s2) :=
  claim_C5_alias_pass (fun _ _ s => s) [⟨"utils", "./shared/utils", none⟩]
    "utils/helpers" ⟨"utils", "./shared/utils", none⟩ (by decide) (by decide)

example :
    aliasReplace (fun _ _ s => s) ⟨"utils", "./shared/utils", none⟩ "utils/helpers"
      = "./shared/utils/helpers" := by decide

/-- C8 (amended): for a candidate directory without a package.json the resolver
probes for an entry file named index with the mjs extension first and the js
extension second — a fixed order hardcoded on transformer.js line 28,
independent of the configured target extension and coinciding with the claim
only when that target is mjs — and appends the found entry's filename to the
specifier; when no entry is found the specifier comes back unchanged (except
the bare dot, which gains the dot-slash marker). -/
theorem claim_C8_index_probe (fsys : FileSys) (cwd base ip : String) (info : AbsPathInfo)
    (hinfo : fsys.absPathInfo (candidatePath cwd base ip) = some info)
    (hdir : info.isFile = false)
    (hpkg : fsys.pathExists (pathJoin (candidatePath cwd base ip) "package.json") = false) :
    updatePath fsys cwd base ip =
      match findFileSync fsys ["index.mjs", "index.js"] (candidatePath cwd base ip) with
      | some f => relFix ip (pathJoin ip (pathBasename f))
      | none => if ip = "." then "./." else ip := by
  simp only [updatePath, hinfo, hdir, createReplacementForFolder, hpkg,
    Bool.false_eq_true, if_false]
  cases hf : findFileSync fsys ["index.mjs", "index.js"] (candidatePath cwd base ip) with
  | some f =>
    simp [pathJoin_ne_empty]
  | none =>
    exact relFix_self ip

/-- C8 (counterexample to the claim as stated): with the default target
extension js, a directory holding only an index.mjs makes the source resolver
append index.mjs, while a resolver probing the target extension first, as the
claim words it, would find no js entry and leave the specifier unchanged. -/
theorem claim_C8_counterexample :
    fsysIndexDir.absPathInfo (candidatePath "/p" "/out" "./lib") = some ⟨false, "/out/lib"⟩ ∧
    fsysIndexDir.pathExists (pathJoin (candidatePath "/p" "/out" "./lib") "package.json")
        = false ∧
    updatePath fsysIndexDir "/p" "/out" "./lib" = "./lib/index.mjs" ∧
    updatePathSpecC8 fsysIndexDir "js" "/p" "/out" "./lib" = "./lib" ∧
    ("./lib/index.mjs" : String) ≠ "./lib" := by
  refine ⟨by decide, by decide, by decide, by decide, by decide⟩

/-- C8 witness: the amended theorem applied to the index.mjs fixture. -/
theorem claim_C8_witness :
    updatePath fsysIndexDir "/p" "/out" "./lib" =
      match findFileSync fsysIndexDir ["index.mjs", "index.js"]
          (candidatePath "/p" "/out" "./lib") with
      | some f => relFix "./lib" (pathJoin "./lib" (pathBasename f))
      | none => if ("./lib" : String) = "." then "./." else "./lib" :=
  claim_C8_index_probe fsysIndexDir "/p" "/out" "./lib" ⟨false, "/out/lib"⟩
    (by decide) rfl (by decide)

theorem splitOnPredList_head (sep : Char → Bool) (l : List Char) :
    ∃ r, splitOnPredList sep l = (l.takeWhile (fun c => !(sep c))) :: r := by
  induction l with
  | nil => exact ⟨[], rfl⟩
  | cons c cs ih =>
    obtain ⟨r, hr⟩ := ih
    by_cases hc : sep c = true
    · refine ⟨cs.takeWhile (fun x => !(sep x)) :: r, ?_⟩
      simp [splitOnPredList, hr, hc, List.takeWhile_cons]
    · simp only [Bool.not_eq_true] at hc
      refine ⟨r, ?_⟩
      simp [splitOnPredList, hr, hc, List.takeWhile_cons]

theorem replaceFirstList_of_isPrefixOf (pat repl l : List Char) (hne : l ≠ [])
    (h : pat.isPrefixOf l = true) :
    replaceFirstList pat repl l = repl ++ l.drop pat.length := by
  cases l with
  | nil => exact absurd rfl hne
  | cons c cs => simp [replaceFirstList, h]

theorem drop_takeWhile_length (p : Char → Bool) (l : List Char) :
    l.drop (l.takeWhile p).length = l.dropWhile p := by
  induction l with
  | nil => rfl
  | cons c cs ih =>
    by_cases hc : p c = true
    · simp [List.takeWhile_cons, List.dropWhile_cons, hc, ih]
    · simp [List.takeWhile_cons, List.dropWhile_cons, hc]

theorem isPrefixOf_hashbang (l : List Char) (h : List.isPrefixOf ['#', '!'] l = true) :
    ∃ t, l = '#' :: '!' :: t := by
  cases l with
  | nil => simp [List.isPrefixOf] at h
  | cons a as =>
    cases as with
    | nil => simp [List.isPrefixOf] at h
    | cons b bs =>
      simp [List.isPrefixOf] at h
      exact ⟨bs, by rw [h.1, h.2]⟩

/-- C2 (amended): shield-removal followed by restoration on a file whose
content begins with an interpreter directive yields the directive (the first
stretch of characters up to any JS line terminator, newline and carriage
return alike), one blank line, and the original remainder stripped of its
leading whitespace — including the original line terminators.  The result is
byte-identical to the original content only when the content already had
exactly the directive, a newline-blank-line pair, and a remainder not starting
with whitespace; a single-newline or a CRLF original is altered. -/
theorem claim_C2_shebang_roundtrip (c : String) (h : strStartsWith c "#!" = true) :
    shebangRoundTrip c =
      String.mk (c.toList.takeWhile (fun ch => !(isJsLineTerminator ch))) ++ "\n\n"
        ++ String.mk ((c.toList.dropWhile (fun ch => !(isJsLineTerminator ch))).dropWhile
            isJsWhitespace) := by
  have hl : List.isPrefixOf ['#', '!'] c.toList = true := h
  obtain ⟨t, ht⟩ := isPrefixOf_hashbang _ hl
  obtain ⟨r, hsplit⟩ := splitOnPredList_head isJsLineTerminator c.toList
  have hpred : List.isPrefixOf ['#', '!']
      (c.toList.takeWhile (fun ch => !(isJsLineTerminator ch))) = true := by
    rw [ht]
    simp [List.takeWhile_cons, List.isPrefixOf, isJsLineTerminator]
  have hfind : (splitOnPredList isJsLineTerminator c.toList).find?
      (fun l => List.isPrefixOf ['#', '!'] l)
      = some (c.toList.takeWhile (fun ch => !(isJsLineTerminator ch))) := by
    rw [hsplit]
    exact List.find?_cons_of_pos _ hpred
  have hpre : (c.toList.takeWhile (fun ch => !(isJsLineTerminator ch))).isPrefixOf c.toList
      = true := takeWhile_isPrefixOf _ _
  have hne : c.toList ≠ [] := by
    rw [ht]
    exact List.cons_ne_nil _ _
  unfold shebangRoundTrip removeShebangFile restoreShebangFile
  rw [hfind]
  simp only []
  rw [replaceFirstList_of_isPrefixOf _ _ _ hne hpre]
  rw [List.nil_append, drop_takeWhile_length]

/-- C2 (counterexample to the claim as stated): a directive followed by a
single newline and code comes back with an extra blank line, so the round trip
is not byte-identical. -/
theorem claim_C2_counterexample :
    strStartsWith "#!a\nb" "#!" = true ∧
    shebangRoundTrip "#!a\nb" = "#!a\n\nb" ∧ ("#!a\n\nb" : String) ≠ "#!a\nb" := by
  refine ⟨by decide, by decide, by decide⟩

/-- C2 witness: the amended theorem applied to a concrete CRLF directive file,
where the recorded directive stops before the carriage return. -/
theorem claim_C2_witness :
    shebangRoundTrip "#!x\r\nfoo" =
      String.mk (("#!x\r\nfoo" : String).toList.takeWhile
          (fun ch => !(isJsLineTerminator ch))) ++ "\n\n"
        ++ String.mk ((("#!x\r\nfoo" : String).toList.dropWhile
            (fun ch => !(isJsLineTerminator ch))).dropWhile isJsWhitespace) :=
  claim_C2_shebang_roundtrip "#!x\r\nfoo" (by decide)

theorem matchesJsExt_head (p : String) (h : matchesJsExt p = true) :
    ∃ c t, p.toList.reverse = c :: t ∧ Char.toLower c = 's' := by
  unfold matchesJsExt at h
  cases hr : p.toList.reverse with
  | nil =>
    rw [hr] at h
    simp [List.isPrefixOf] at h
  | cons c t =>
    rw [hr] at h
    simp [List.isPrefixOf] at h
    exact ⟨c, t, rfl, h.1.symm⟩

theorem dropWhile_slash_of_matchesJsExt (p : String) (h : matchesJsExt p = true) :
    p.toList.reverse.dropWhile (· == '/') = p.toList.reverse := by
  obtain ⟨c, t, hr, hc⟩ := matchesJsExt_head p h
  rw [hr]
  have hcf : (c == '/') = false := by
    cases hcc : (c == '/') with
    | false => rfl
    | true =>
      have hce : c = '/' := by simpa using hcc
      rw [hce] at hc
      exact absurd hc (by decide)
  simp [List.dropWhile_cons, hcf]

theorem parseExt_cases (p : String) :
    parseExt p = "" ∨
    parseExt p = String.mk ((((pathBasename p).toList.reverse).take
      ((((pathBasename p).toList.reverse).takeWhile (· != '.')).length + 1)).reverse) := by
  unfold parseExt
  simp only []
  split
  · exact Or.inl rfl
  · split
    · exact Or.inl rfl
    · split
      · exact Or.inl rfl
      · exact Or.inr rfl

theorem parseExt_suffix (p : String)
    (hnt : p.toList.reverse.dropWhile (· == '/') = p.toList.reverse)
    (hne : parseExt p ≠ "") : strEndsWith p (parseExt p) = true := by
  rcases parseExt_cases p with h0 | h0
  · exact absurd h0 hne
  · rw [h0]
    have hr : (pathBasename p).toList.reverse = p.toList.reverse.takeWhile (· != '/') := by
      show ((((p.toList.reverse.dropWhile (· == '/')).takeWhile (· != '/')).reverse)).reverse
          = p.toList.reverse.takeWhile (· != '/')
      rw [List.reverse_reverse, hnt]
    simp only [strEndsWith, strMk_toList, List.reverse_reverse]
    have h1 : ((pathBasename p).toList.reverse).take
        ((((pathBasename p).toList.reverse).takeWhile (· != '.')).length + 1)
          <+: (pathBasename p).toList.reverse := List.take_prefix _ _
    have h2 : (pathBasename p).toList.reverse <+: p.toList.reverse := by
      rw [hr]
      exact List.takeWhile_prefix _
    exact isPrefixOf_of_prefix _ _ (h1.trans h2)

theorem strEndsWith_mk_append (x : List Char) (t : String) :
    strEndsWith (String.mk (x ++ t.toList)) t = true := by
  simp only [strEndsWith, strMk_toList, List.reverse_append]
  exact isPrefixOf_append_self _ _

/-- C6 (amended): every copied file whose destination pre-rewrite path passes
the case-insensitive source filter and whose basename is not the bare dotfile
form (its parsed extension is nonempty) receives the configured target
extension, whatever the case of the source extension; the bare dotfile named
exactly dot-js slips through unchanged, which the counterexample records. -/
theorem claim_C6_extension_rewrite (useExtension output cleanPath : String)
    (_hu : useExtension = "js" ∨ useExtension = "mjs")
    (hjs : matchesJsExt (pathJoin output cleanPath) = true)
    (hne : parseExt (pathJoin output cleanPath) ≠ "") :
    strEndsWith (copyDestPath useExtension output cleanPath) ("." ++ useExtension) = true := by
  have hnt := dropWhile_slash_of_matchesJsExt _ hjs
  have hsuf := parseExt_suffix _ hnt hne
  unfold copyDestPath
  simp only []
  by_cases hb : (parseExt (pathJoin output cleanPath) == ("." ++ useExtension)) = true
  · have heq : parseExt (pathJoin output cleanPath) = "." ++ useExtension := by
      simpa using hb
    simp only [hb, Bool.not_true, Bool.false_eq_true, if_false]
    rw [← heq]
    exact hsuf
  · simp only [Bool.not_eq_true] at hb
    simp only [hb, Bool.not_false, if_true]
    unfold replaceExtRegex
    have hbne : (parseExt (pathJoin output cleanPath) == "") = false := by
      simpa using hne
    simp only [hbne, Bool.false_eq_true, if_false, hsuf, if_true]
    exact strEndsWith_mk_append _ _

/-- C6 (counterexample to the claim as stated): a source file named exactly
dot-js passes the collector filter, but with target extension mjs its copy
keeps the dot-js name — the parsed extension of such a dotfile is empty, the
built regex degenerates to an escaped dollar, and no rewrite happens. -/
theorem claim_C6_counterexample :
    matchesJsExt (pathJoin "/out" ".js") = true ∧
    copyDestPath "mjs" "/out" ".js" = "/out/.js" ∧
    strEndsWith "/out/.js" ".mjs" = false ∧
    parseExt "/out/.js" ≠ ".mjs" := by
  refine ⟨by decide, by decide, by decide, by decide⟩

/-- C6 witness: the amended theorem applied to an upper-case source extension
with target mjs. -/
theorem claim_C6_witness :
    (("mjs" : String) = "js" ∨ ("mjs" : String) = "mjs") ∧
    matchesJsExt (pathJoin "/out" "a.JS") = true ∧
    parseExt (pathJoin "/out" "a.JS") ≠ "" ∧
    strEndsWith (copyDestPath "mjs" "/out" "a.JS") ("." ++ "mjs") = true :=
  ⟨Or.inr rfl, by decide, by decide,
    claim_C6_extension_rewrite "mjs" "/out" "a.JS" (Or.inr rfl) (by decide) (by decide)⟩
